import Mathlib

set_option maxHeartbeats 1000000

/-!
Verification development for the ioTube witness-service core: a shallow
embedding of the transfer recorder (witness/recorder.go) and of the IoTeX
transfer-validator driver (relayer/transfervalidatoroniotex.go), with
theorems settling the behavioural properties claimed about them.

Modelling conventions: 20-byte addresses, 32-byte hashes and bytes are
represented as natural numbers; big.Int values as Int; every fallible call
to the database, the chain RPC, or the ABI decoder is represented as an
explicit environment value of type Except so a run of the embedded
function is a pure evaluation.
-/

abbrev Address := Nat
abbrev Hash := Nat
abbrev Byte := Nat
abbrev GoError := String

namespace Recorder

/-- Transfer status values of the recorder table. Modelled from the spec:
the constants TransferNew, SubmissionConfirmed and TransferSettled are
declared outside the given sources; the spec maps the schema default to
the status named new and the lifecycle names to confirmed and settled,
and it also lists submitted and failed as possible status values. -/
inductive TransferStatus
  | new
  | submitted
  | confirmed
  | settled
  | failed
deriving DecidableEq, Repr

/-- Transfer record handed to the recorder, mirroring the fields of the
Transfer value used by AddTransfer, ConfirmTransfer and SettleTransfer. -/
structure Transfer where
  cashier : Address
  token : Address
  index : Nat
  sender : Address
  recipient : Address
  amount : Int
  blockHeight : Nat
  txHash : Hash
  id : Hash
deriving DecidableEq, Repr

/-- One row of the transfer table created by Recorder.Start. -/
structure Row where
  cashier : Address
  token : Address
  tidx : Nat
  sender : Address
  recipient : Address
  amount : Int
  status : TransferStatus
  id : Option Hash
  blockHeight : Nat
  txHash : Hash
deriving DecidableEq, Repr

/-- The transfer table: a list of rows. The primary key of the schema is
the triple (cashier, token, tidx); well-formed states carry at most one
row per key, which theorems take as a hypothesis where needed. -/
abbrev Store := List Row

/-- Row matches the primary key (cashier, token, tidx) of a transfer. -/
def keyMatches (r : Row) (tx : Transfer) : Bool :=
  r.cashier == tx.cashier && r.token == tx.token && r.tidx == tx.index

/-- The tidx value at which validateID panics: math.MaxInt64 - 1,
that is 2^63 - 2. -/
def overflowTidx : Nat := 9223372036854775806

/-- Outcome of AddTransfer: normal return, error return, or the panic
raised by validateID. -/
inductive AddResult
  | ok
  | errored
  | panicked
deriving DecidableEq, Repr

/-- Row inserted by AddTransfer: the INSERT lists cashier, token, tidx,
sender, recipient, amount, blockHeight and txHash; status takes the
schema default and id stays NULL. -/
def mkRow (tx : Transfer) : Row :=
  { cashier := tx.cashier
    token := tx.token
    tidx := tx.index
    sender := tx.sender
    recipient := tx.recipient
    amount := tx.amount
    status := TransferStatus.new
    id := none
    blockHeight := tx.blockHeight
    txHash := tx.txHash }

/-- AddTransfer from recorder.go: validateID panics at the overflow tidx,
a non-positive amount (big.Int Sign different from 1) is an error, and the
INSERT IGNORE leaves an existing row with the same primary key untouched,
reporting success while logging a duplicate notice. -/
def AddTransfer (store : Store) (tx : Transfer) : Store × AddResult :=
  if tx.index == overflowTidx then (store, AddResult.panicked)
  else if tx.amount ≤ 0 then (store, AddResult.errored)
  else if store.any (fun r => keyMatches r tx) then (store, AddResult.ok)
  else (store ++ [mkRow tx], AddResult.ok)

/-- Run a sequence of AddTransfer calls, collecting each call's result. -/
def runAdds : Store → List Transfer → Store × List AddResult
  | store, [] => (store, [])
  | store, tx :: rest =>
    let p := AddTransfer store tx
    let q := runAdds p.1 rest
    (q.1, p.2 :: q.2)

/-- WHERE predicate of the ConfirmTransfer UPDATE: primary key matches and
the current status equals TransferNew. -/
def confirmPred (tx : Transfer) (r : Row) : Bool :=
  keyMatches r tx && r.status == TransferStatus.new

/-- ConfirmTransfer from recorder.go: a single conditional UPDATE setting
status to SubmissionConfirmed and id to the transfer id on the rows whose
key matches and whose status is TransferNew; validateResult turns any
affected-row count other than 1 into an error. -/
def ConfirmTransfer (store : Store) (tx : Transfer) : Store × Option GoError :=
  (store.map (fun r =>
      if confirmPred tx r then
        { r with status := TransferStatus.confirmed, id := some tx.id }
      else r),
   if (store.filter (confirmPred tx)).length == 1 then none
   else some "The number of rows updated is not as expected")

/-- MAX(blockHeight) over the table: NULL (none) on an empty table. -/
def maxHeight : Store → Option Nat
  | [] => none
  | r :: rest =>
    match maxHeight rest with
    | none => some r.blockHeight
    | some m => some (max r.blockHeight m)

/-- TipHeight from recorder.go: a scan error is swallowed and yields
(0, nil); a NULL maximum (empty table) yields (0, nil); otherwise the
maximum block height is returned with a nil error. -/
def TipHeight (store : Store) (scanErr : Bool) : Nat × Option GoError :=
  if scanErr then (0, none)
  else
    match maxHeight store with
    | some h => (h, none)
    | none => (0, none)

end Recorder

namespace Relayer

/-- Witness value handed to submit: an address and an opaque signature. -/
structure Witness where
  addr : Address
  signature : List Byte
deriving DecidableEq, Repr

/-- Transfer value used by the validator driver. -/
structure Transfer where
  cashier : Address
  token : Address
  index : Nat
  sender : Address
  recipient : Address
  amount : Int
  id : Hash
  nonce : Nat
deriving DecidableEq, Repr

/-- Mutable driver state of transferValidatorOnIoTeX that the embedded
operations read or write: the gas parameters and the cached active
witness set (the Go map keyed by address, modelled as a list without
duplicates). -/
structure VState where
  gasLimit : Nat
  gasPrice : Int
  witnesses : List Address
deriving DecidableEq, Repr

/-- Environment of one refresh call: the count read on the witness-list
contract, the getActiveItems page read at each offset (covering the read,
the ABI unpack and the tuple type assertion), and the per-witness address
conversion. -/
structure RefreshEnv where
  countRead : Except GoError Int
  pageRead : Nat → Except GoError (Int × List Address)
  convert : Address → Except GoError Address

/-- Page size used by refresh: limit is the constant 10. -/
def pageLimit : Nat := 10

/-- Paging loop of refresh: starting from offset 0 and stepping by the
page limit while offset is below count, append the first Count items of
each page; any page failure aborts the whole loop. The fuel argument is
the number of iterations the loop performs for the given count. -/
def refreshPages (pageRead : Nat → Except GoError (Int × List Address)) :
    Nat → Nat → List Address → Except GoError (List Address)
  | 0, _, acc => Except.ok acc
  | fuel + 1, offset, acc =>
    match pageRead offset with
    | Except.error e => Except.error e
    | Except.ok pg => refreshPages pageRead fuel (offset + pageLimit) (acc ++ pg.2.take pg.1.toNat)

/-- Address-conversion loop of refresh: each collected witness address is
converted before the cache is built; any failure aborts refresh. -/
def convertAll (convert : Address → Except GoError Address) : List Address → Except GoError Unit
  | [] => Except.ok ()
  | a :: rest =>
    match convert a with
    | Except.error e => Except.error e
    | Except.ok _ => convertAll convert rest

/-- Number of loop iterations performed for a given count: one page per
pageLimit offsets below count. -/
def pageCount (count : Int) : Nat :=
  (count.toNat + pageLimit - 1) / pageLimit

/-- Refresh from transfervalidatoroniotex.go: read the count, page through
getActiveItems, convert every address, and only then replace the cached
witness set (the Go map construction collapses duplicate addresses);
every failure returns before the cache field is assigned. -/
def refresh (env : RefreshEnv) (tv : VState) : VState × Option GoError :=
  match env.countRead with
  | Except.error e => (tv, some e)
  | Except.ok count =>
    match refreshPages env.pageRead (pageCount count) 0 [] with
    | Except.error e => (tv, some e)
    | Except.ok ws =>
      match convertAll env.convert ws with
      | Except.error e => (tv, some e)
      | Except.ok _ => ({ tv with witnesses := ws.dedup }, none)

/-- Signature-collection loop of submit: walk the supplied witness list in
order; active witnesses append their signature to the aggregate payload
and are counted, inactive ones are logged and skipped. -/
def collectSigs (cache : List Address) (ws : List Witness) : List Byte × Nat :=
  ws.foldl
    (fun acc w =>
      if cache.contains w.addr then (acc.1 ++ w.signature, acc.2 + 1) else acc)
    ([], 0)

/-- Error outcomes of submit: errNoncritical wrapping (refresh or account
failures), errInsufficientWitnesses, and a failed Execute call. -/
inductive SubmitErr
  | noncritical (e : GoError)
  | insufficientWitnesses
  | execFailed (e : GoError)
deriving DecidableEq, Repr

/-- Successful submission as broadcast by Execute: the action hash, the
nonce and gas price set on the action, and the aggregated signature
payload passed to the validator contract. -/
structure Broadcast where
  actionHash : Hash
  nonce : Nat
  gasPrice : Int
  payload : List Byte
deriving DecidableEq, Repr

/-- Relayer account state returned by GetAccount. -/
structure Account where
  balance : Int
  nonce : Nat
deriving DecidableEq, Repr

/-- Environment of one submit call: the refresh environment, the
GetAccount result, and the Execute call result. -/
structure SubEnv where
  renv : RefreshEnv
  account : Except GoError Account
  exec : Except GoError Hash

/-- The submit method of transferValidatorOnIoTeX: refresh the witness
cache (failure is noncritical), collect the signatures of active
witnesses in the supplied order, reject with errInsufficientWitnesses
unless three times the valid-signature count exceeds twice the cache
size, read the relayer account (failure is noncritical; a low balance
only raises an alert), pick the nonce (the transfer nonce on resubmit,
account nonce plus one otherwise), and execute the validator submit with
the configured gas price and limit. -/
def submit (env : SubEnv) (tv : VState) (tr : Transfer) (ws : List Witness)
    (resubmit : Bool) : VState × Except SubmitErr Broadcast :=
  match refresh env.renv tv with
  | (tv1, some e) => (tv1, Except.error (SubmitErr.noncritical e))
  | (tv1, none) =>
    let pair := collectSigs tv1.witnesses ws
    if pair.2 * 3 ≤ tv1.witnesses.length * 2 then
      (tv1, Except.error SubmitErr.insufficientWitnesses)
    else
      match env.account with
      | Except.error e => (tv1, Except.error (SubmitErr.noncritical e))
      | Except.ok acct =>
        let nonce := if resubmit then tr.nonce else acct.nonce + 1
        match env.exec with
        | Except.error e => (tv1, Except.error (SubmitErr.execFailed e))
        | Except.ok h =>
          (tv1, Except.ok { actionHash := h, nonce := nonce, gasPrice := tv1.gasPrice, payload := pair.1 })

/-- The exported Submit: submit with resubmit set to false. -/
def Submit (env : SubEnv) (tv : VState) (tr : Transfer) (ws : List Witness) :
    VState × Except SubmitErr Broadcast :=
  submit env tv tr ws false

/-- The exported SpeedUp: submit with resubmit set to true. -/
def SpeedUp (env : SubEnv) (tv : VState) (tr : Transfer) (ws : List Witness) :
    VState × Except SubmitErr Broadcast :=
  submit env tv tr ws true

/-- Insert a witness into a list sorted ascending by address. -/
def insertByAddr (w : Witness) : List Witness → List Witness
  | [] => [w]
  | v :: rest => if w.addr ≤ v.addr then w :: v :: rest else v :: insertByAddr w rest

/-- Sort a witness list ascending by address byte value. -/
def sortByAddr : List Witness → List Witness
  | [] => []
  | w :: rest => insertByAddr w (sortByAddr rest)

/-- Modelled from the spec: the aggregated payload the spec describes,
namely the signatures of the active witnesses concatenated in ascending
witness-address byte order. Stated for comparison with the payload the
code builds. -/
def sortedSigPayload (active : List Address) (ws : List Witness) : List Byte :=
  ((sortByAddr (ws.filter (fun w => active.contains w.addr))).map Witness.signature).flatten

/-- On-chain status values returned by Check. -/
inductive StatusOnChainType
  | unknown
  | notConfirmed
  | needSpeedUp
  | settled
  | rejected
deriving DecidableEq, Repr

/-- Result of the GetReceiptByAction call as Check inspects it: a grpc
NotFound error, any other grpc error, or a nil error together with the
response (which may itself be nil). -/
inductive ReceiptResult
  | errNotFound
  | errOther (e : GoError)
  | okResp (r : Option Hash)
deriving DecidableEq, Repr

/-- Environment of one Check call: the settles read on the validator
contract (covering the read, the unpack and the type assertion) and the
receipt lookup for the last submission action. -/
structure CheckEnv where
  settles : Except GoError Int
  receipt : ReceiptResult

/-- Check from transfervalidatoroniotex.go: a failed settles read is
Unknown with the error; a positive settle height is Settled; otherwise
the receipt lookup decides: NotFound is NeedSpeedUp, any other grpc error
is Unknown with the error, a non-nil response is Rejected whatever the
receipt status, and a nil response with a nil error is NotConfirmed. -/
def Check (env : CheckEnv) : StatusOnChainType × Option GoError :=
  match env.settles with
  | Except.error e => (StatusOnChainType.unknown, some e)
  | Except.ok settleHeight =>
    if 0 < settleHeight then (StatusOnChainType.settled, none)
    else
      match env.receipt with
      | ReceiptResult.errNotFound => (StatusOnChainType.needSpeedUp, none)
      | ReceiptResult.errOther e => (StatusOnChainType.unknown, some e)
      | ReceiptResult.okResp (some _) => (StatusOnChainType.rejected, none)
      | ReceiptResult.okResp none => (StatusOnChainType.notConfirmed, none)

/-- Modelled from the spec: the classification order the spec states for
Check. Settled on a non-zero settle height; else Rejected when a receipt
for the last submission can be fetched; else NeedSpeedUp when that
transaction is absent; else NotConfirmed; and Unknown carrying the error
on any RPC failure. -/
def CheckSpec (env : CheckEnv) : StatusOnChainType × Option GoError :=
  match env.settles with
  | Except.error e => (StatusOnChainType.unknown, some e)
  | Except.ok settleHeight =>
    if 0 < settleHeight then (StatusOnChainType.settled, none)
    else
      match env.receipt with
      | ReceiptResult.okResp (some _) => (StatusOnChainType.rejected, none)
      | ReceiptResult.errNotFound => (StatusOnChainType.needSpeedUp, none)
      | ReceiptResult.okResp none => (StatusOnChainType.notConfirmed, none)
      | ReceiptResult.errOther e => (StatusOnChainType.unknown, some e)

end Relayer

/-! Concrete sample values used by witnesses and counterexamples. -/

/-- Sample recorder transfer with key (1, 2, 3) and a positive amount. -/
def txOne : Recorder.Transfer :=
  { cashier := 1, token := 2, index := 3, sender := 4, recipient := 5,
    amount := 100, blockHeight := 7, txHash := 8, id := 9 }

/-- Sample recorder transfer with the same key as txOne and amount zero. -/
def txZero : Recorder.Transfer :=
  { cashier := 1, token := 2, index := 3, sender := 14, recipient := 15,
    amount := 0, blockHeight := 17, txHash := 18, id := 19 }

/-- Sample recorder transfer whose tidx is 2^63 - 1, the value the spec
calls fatal. -/
def tx63max : Recorder.Transfer :=
  { cashier := 1, token := 2, index := 9223372036854775807, sender := 4,
    recipient := 5, amount := 100, blockHeight := 7, txHash := 8, id := 9 }

/-- Sample recorder transfer with amount zero and the tidx at which
validateID panics (2^63 - 2). -/
def txPanic : Recorder.Transfer :=
  { cashier := 1, token := 2, index := 9223372036854775806, sender := 4,
    recipient := 5, amount := 0, blockHeight := 7, txHash := 8, id := 9 }

/-- Sample table row with key (1, 2, 3) and status submitted. -/
def rowSubmitted : Recorder.Row :=
  { cashier := 1, token := 2, tidx := 3, sender := 4, recipient := 5,
    amount := 100, status := Recorder.TransferStatus.submitted, id := none,
    blockHeight := 7, txHash := 8 }

/-- Sample witnesses with ascending addresses and distinct signatures. -/
def w1 : Relayer.Witness := { addr := 1, signature := [10] }

/-- Second sample witness. -/
def w2 : Relayer.Witness := { addr := 2, signature := [20] }

/-- Third sample witness. -/
def w3 : Relayer.Witness := { addr := 3, signature := [30] }

/-- Sample relayer transfer with recorded nonce 42. -/
def trSample : Relayer.Transfer :=
  { cashier := 1, token := 2, index := 3, sender := 4, recipient := 5,
    amount := 100, id := 9, nonce := 42 }

/-- Initial driver state with the constructor gas parameters and an empty
witness cache. -/
def tvStart : Relayer.VState :=
  { gasLimit := 2000000, gasPrice := 1000000000000, witnesses := [] }

/-- Refresh environment in which every chain call succeeds and the witness
list contract holds the three sample witnesses. -/
def renvGood : Relayer.RefreshEnv :=
  { countRead := Except.ok 3,
    pageRead := fun _ => Except.ok (3, [1, 2, 3]),
    convert := fun a => Except.ok a }

/-- Refresh environment whose count read fails. -/
def renvBad : Relayer.RefreshEnv :=
  { countRead := Except.error "count failed",
    pageRead := fun _ => Except.ok (3, [1, 2, 3]),
    convert := fun a => Except.ok a }

/-- Submit environment in which every chain call succeeds: the witness
list holds the three sample witnesses, the relayer account has nonce 5,
and Execute returns action hash 99. -/
def subEnvGood : Relayer.SubEnv :=
  { renv := renvGood,
    account := Except.ok { balance := 1000000000000000000, nonce := 5 },
    exec := Except.ok 99 }

/-! Theorems. -/

namespace Recorder

/-- Helper: a conditional map whose condition holds nowhere is the
identity. -/
theorem mapIfFalse {α : Type} (p : α → Bool) (f : α → α) (l : List α)
    (h : ∀ a ∈ l, p a = false) : l.map (fun a => if p a then f a else a) = l := by
  induction l with
  | nil => rfl
  | cons a rest ih =>
    have ha := h a (List.mem_cons_self a rest)
    have hrest := ih (fun b hb => h b (List.mem_cons_of_mem a hb))
    simp [ha, hrest]

/-- Helper: the image of an element satisfying the condition of a
conditional map is in the mapped list. -/
theorem memMapIfTrue {α : Type} (p : α → Bool) (f : α → α) {l : List α} {a : α}
    (ha : a ∈ l) (hp : p a = true) :
    f a ∈ l.map (fun x => if p x then f x else x) := by
  have := List.mem_map_of_mem (fun x => if p x then f x else x) ha
  simpa [hp] using this

/-- Helper: an element failing the condition of a conditional map stays
in the mapped list unchanged. -/
theorem memMapIfFalse {α : Type} (p : α → Bool) (f : α → α) {l : List α} {a : α}
    (ha : a ∈ l) (hp : p a = false) :
    a ∈ l.map (fun x => if p x then f x else x) := by
  have := List.mem_map_of_mem (fun x => if p x then f x else x) ha
  simp only [hp, Bool.false_eq_true, if_false] at this
  exact this

/-- Helper: the ConfirmTransfer WHERE predicate selects a subset of the
rows matching the primary key. -/
theorem confirm_filter_length_le (store : Store) (tx : Transfer) :
    (store.filter (confirmPred tx)).length ≤
      (store.filter (fun r => keyMatches r tx)).length := by
  have h : store.filter (confirmPred tx) =
      (store.filter (fun r => keyMatches r tx)).filter
        (fun r => r.status == TransferStatus.new) := by
    rw [List.filter_filter]
    apply List.filter_congr
    intro r _
    simp [confirmPred, Bool.and_comm]
  rw [h]
  exact List.length_filter_le _ _

/-- C3 (amended): ConfirmTransfer is an atomic conditional update that
moves a transfer from status new to status confirmed. Under the
primary-key uniqueness of the table it succeeds exactly when a row with
the transfer key currently has status new; on failure it returns a
stale-state error and the table is unchanged; the matching new row is
rewritten to status confirmed with the transfer id, and every row not
matched by the WHERE predicate is kept as it is. -/
theorem confirmTransfer_conditional (store : Store) (tx : Transfer)
    (huniq : (store.filter (fun r => keyMatches r tx)).length ≤ 1) :
    ((ConfirmTransfer store tx).2 = none ↔
      ∃ r ∈ store, confirmPred tx r = true) ∧
    ((ConfirmTransfer store tx).2 ≠ none → (ConfirmTransfer store tx).1 = store) ∧
    (∀ r ∈ store, confirmPred tx r = true →
      { r with status := TransferStatus.confirmed, id := some tx.id } ∈
        (ConfirmTransfer store tx).1) ∧
    (∀ r ∈ store, confirmPred tx r = false → r ∈ (ConfirmTransfer store tx).1) := by
  have hle : (store.filter (confirmPred tx)).length ≤ 1 :=
    le_trans (confirm_filter_length_le store tx) huniq
  refine ⟨?_, ?_, ?_, ?_⟩
  · constructor
    · intro h
      by_contra hex
      push_neg at hex
      have hnil : store.filter (confirmPred tx) = [] := by
        apply List.filter_eq_nil_iff.mpr
        intro r hr
        simpa using hex r hr
      simp only [ConfirmTransfer, hnil] at h
      simp at h
    · intro hex
      obtain ⟨r, hr, hpred⟩ := hex
      have hmem : r ∈ store.filter (confirmPred tx) := List.mem_filter.mpr ⟨hr, hpred⟩
      have hpos : 0 < (store.filter (confirmPred tx)).length :=
        List.length_pos.mpr (List.ne_nil_of_mem hmem)
      have h1 : (store.filter (confirmPred tx)).length = 1 := by omega
      simp [ConfirmTransfer, h1]
  · intro h
    have h0 : (store.filter (confirmPred tx)).length ≠ 1 := by
      intro h1
      simp [ConfirmTransfer, h1] at h
    have hall : ∀ r ∈ store, confirmPred tx r = false := by
      intro r hr
      cases hcp : confirmPred tx r
      · rfl
      · exfalso
        have hmem : r ∈ store.filter (confirmPred tx) := List.mem_filter.mpr ⟨hr, hcp⟩
        have hpos : 0 < (store.filter (confirmPred tx)).length :=
          List.length_pos.mpr (List.ne_nil_of_mem hmem)
        omega
    exact mapIfFalse _ _ store hall
  · intro r hr hpred
    exact memMapIfTrue (confirmPred tx)
      (fun x => { x with status := TransferStatus.confirmed, id := some tx.id }) hr hpred
  · intro r hr hpred
    exact memMapIfFalse (confirmPred tx)
      (fun x => { x with status := TransferStatus.confirmed, id := some tx.id }) hr hpred

end Recorder

namespace Recorder

/-- C3 (counterexample): a transfer whose row currently has status
submitted is not moved to confirmed: the WHERE predicate of
ConfirmTransfer requires status TransferNew, so the call returns the
stale-state error and leaves the row as it is, refuting the claim that
the update succeeds exactly on status submitted. -/
theorem confirmTransfer_submitted_counterexample :
    rowSubmitted.status = TransferStatus.submitted ∧
    keyMatches rowSubmitted txOne = true ∧
    (ConfirmTransfer [rowSubmitted] txOne).2 ≠ none ∧
    (ConfirmTransfer [rowSubmitted] txOne).1 = [rowSubmitted] := by decide

/-- C3 (witness): the amended ConfirmTransfer theorem evaluated on a
one-row table holding a freshly added transfer in status new. -/
theorem confirmTransfer_conditional_witness :
    (([mkRow txOne].filter (fun r => keyMatches r txOne)).length ≤ 1) ∧
    (((ConfirmTransfer [mkRow txOne] txOne).2 = none ↔
      ∃ r ∈ [mkRow txOne], confirmPred txOne r = true) ∧
    ((ConfirmTransfer [mkRow txOne] txOne).2 ≠ none →
      (ConfirmTransfer [mkRow txOne] txOne).1 = [mkRow txOne]) ∧
    (∀ r ∈ [mkRow txOne], confirmPred txOne r = true →
      { r with status := TransferStatus.confirmed, id := some txOne.id } ∈
        (ConfirmTransfer [mkRow txOne] txOne).1) ∧
    (∀ r ∈ [mkRow txOne], confirmPred txOne r = false →
      r ∈ (ConfirmTransfer [mkRow txOne] txOne).1)) :=
  ⟨by decide, confirmTransfer_conditional [mkRow txOne] txOne (by decide)⟩

/-- Helper: AddTransfer on a key already present in the table leaves the
table unchanged and reports success, provided the transfer passes the
tidx and amount validation. -/
theorem addTransfer_duplicate (store : Store) (u : Transfer)
    (hkey : ∃ r ∈ store, keyMatches r u = true)
    (hov : u.index ≠ overflowTidx) (hamt : 0 < u.amount) :
    AddTransfer store u = (store, AddResult.ok) := by
  have h1 : (u.index == overflowTidx) = false := by simpa using hov
  have h2 : ¬ (u.amount ≤ 0) := by omega
  have h3 : store.any (fun r => keyMatches r u) = true := List.any_eq_true.mpr hkey
  simp [AddTransfer, h1, h2, h3]

/-- Helper: a run of AddTransfer calls whose keys are all already present
in the table returns success on every call and leaves the table as it
is. -/
theorem runAdds_stable (ts : List Transfer) (store : Store)
    (h : ∀ u ∈ ts, (∃ r ∈ store, keyMatches r u = true) ∧
      u.index ≠ overflowTidx ∧ 0 < u.amount) :
    runAdds store ts = (store, List.replicate ts.length AddResult.ok) := by
  induction ts with
  | nil => rfl
  | cons u rest ih =>
    have hu := h u (List.mem_cons_self u rest)
    have hstep : AddTransfer store u = (store, AddResult.ok) :=
      addTransfer_duplicate store u hu.1 hu.2.1 hu.2.2
    have hrest := ih (fun v hv => h v (List.mem_cons_of_mem u hv))
    simp [runAdds, hstep, hrest, List.replicate_succ]

/-- C4 (amended): in a sequence of AddTransfer calls sharing the
(cashier, token, tidx) key, the first call (on a valid transfer with a
fresh key) inserts exactly one row, and each later call whose transfer
also passes the amount validation returns success and leaves the table
unchanged, so the single row for the key keeps the fields of the first
insertion. -/
theorem addTransfer_first_insertion_wins (t : Transfer) (ts : List Transfer)
    (store : Store)
    (hov : t.index ≠ overflowTidx) (hamt : 0 < t.amount)
    (hfresh : ∀ r ∈ store, keyMatches r t = false)
    (hsame : ∀ u ∈ ts, u.cashier = t.cashier ∧ u.token = t.token ∧
      u.index = t.index ∧ 0 < u.amount) :
    (runAdds store (t :: ts)).1 = store ++ [mkRow t] ∧
    (runAdds store (t :: ts)).2 = List.replicate (ts.length + 1) AddResult.ok ∧
    (runAdds store (t :: ts)).1.filter (fun r => keyMatches r t) = [mkRow t] := by
  have h1 : (t.index == overflowTidx) = false := by simpa using hov
  have h2 : ¬ (t.amount ≤ 0) := by omega
  have h3 : store.any (fun r => keyMatches r t) = false := by
    rw [List.any_eq_false]
    intro r hr
    simp [hfresh r hr]
  have hfirst : AddTransfer store t = (store ++ [mkRow t], AddResult.ok) := by
    simp [AddTransfer, h1, h2, h3]
  have hmk : keyMatches (mkRow t) t = true := by simp [keyMatches, mkRow]
  have hmkin : mkRow t ∈ store ++ [mkRow t] := by simp
  have hstable := runAdds_stable ts (store ++ [mkRow t]) (by
    intro u hu
    obtain ⟨hc, htok, hidx, hamt2⟩ := hsame u hu
    refine ⟨⟨mkRow t, hmkin, ?_⟩, ?_, hamt2⟩
    · simp [keyMatches, mkRow, hc, htok, hidx]
    · rw [hidx]; exact hov)
  have hrun : runAdds store (t :: ts) =
      (store ++ [mkRow t], AddResult.ok :: List.replicate ts.length AddResult.ok) := by
    simp [runAdds, hfirst, hstable]
  refine ⟨?_, ?_, ?_⟩
  · rw [hrun]
  · rw [hrun]
    simp [List.replicate_succ]
  · rw [hrun]
    simp only [List.filter_append]
    have hnil : store.filter (fun r => keyMatches r t) = [] := by
      apply List.filter_eq_nil_iff.mpr
      intro r hr
      simp [hfresh r hr]
    rw [hnil]
    simp [hmk]

/-- C4 (witness): the amended AddTransfer sequence theorem evaluated on
an empty table with the same valid transfer added twice. -/
theorem addTransfer_first_insertion_wins_witness :
    (txOne.index ≠ overflowTidx ∧ 0 < txOne.amount ∧
      (∀ r ∈ ([] : Store), keyMatches r txOne = false) ∧
      (∀ u ∈ [txOne], u.cashier = txOne.cashier ∧ u.token = txOne.token ∧
        u.index = txOne.index ∧ 0 < u.amount)) ∧
    ((runAdds [] [txOne, txOne]).1 = [] ++ [mkRow txOne] ∧
    (runAdds [] [txOne, txOne]).2 = List.replicate 2 AddResult.ok ∧
    (runAdds [] [txOne, txOne]).1.filter (fun r => keyMatches r txOne) = [mkRow txOne]) :=
  ⟨⟨by decide, by decide, by decide, by decide⟩,
    addTransfer_first_insertion_wins txOne [txOne] []
      (by decide) (by decide) (by decide) (by decide)⟩

/-- C4 (counterexample): a later AddTransfer call on the same key is not
always a success: when the later transfer carries a non-positive amount
the amount validation fires and the call returns an error, refuting the
claim that every call after the first returns success. -/
theorem addTransfer_sequence_counterexample :
    txZero.cashier = txOne.cashier ∧ txZero.token = txOne.token ∧
    txZero.index = txOne.index ∧
    (runAdds [] [txOne, txZero]).2 = [AddResult.ok, AddResult.errored] ∧
    AddResult.errored ≠ AddResult.ok := by decide

/-- C5 (amended): AddTransfer panics exactly when the transfer tidx
equals math.MaxInt64 - 1, that is 2^63 - 2; no other tidx value is
treated as the overflow sentinel, and in particular 2^63 - 1 is not. -/
theorem addTransfer_panics_iff (store : Store) (t : Transfer) :
    (AddTransfer store t).2 = AddResult.panicked ↔
      t.index = 9223372036854775806 := by
  constructor
  · intro h
    simp only [AddTransfer] at h
    split at h
    · next hc => simpa [overflowTidx] using hc
    · next hc =>
      split at h
      · simp at h
      · split at h <;> simp at h
  · intro hidx
    simp [AddTransfer, overflowTidx, hidx]

/-- C5 (counterexample): a transfer whose tidx is 2^63 - 1 does not
panic: AddTransfer inserts the row and returns success, refuting the
claim that reaching 2^63 - 1 is the fatal overflow value (the code
panics one value earlier, at 2^63 - 2). -/
theorem overflow_boundary_counterexample :
    tx63max.index = 9223372036854775807 ∧
    AddTransfer [] tx63max = ([mkRow tx63max], AddResult.ok) ∧
    AddResult.ok ≠ AddResult.panicked := by decide

/-- C6 (amended): for every transfer with a non-positive amount whose
tidx is not the panic sentinel 2^63 - 2, AddTransfer returns the
invariant-violation error and writes nothing to the table. -/
theorem addTransfer_nonpositive_amount (store : Store) (t : Transfer)
    (hov : t.index ≠ overflowTidx) (hamt : t.amount ≤ 0) :
    AddTransfer store t = (store, AddResult.errored) := by
  have h1 : (t.index == overflowTidx) = false := by simpa using hov
  simp [AddTransfer, h1, hamt]

/-- C6 (witness): the amended non-positive amount theorem evaluated on an
empty table and a zero-amount transfer. -/
theorem addTransfer_nonpositive_amount_witness :
    (txZero.index ≠ overflowTidx ∧ txZero.amount ≤ 0) ∧
    AddTransfer [] txZero = ([], AddResult.errored) :=
  ⟨⟨by decide, by decide⟩,
    addTransfer_nonpositive_amount [] txZero (by decide) (by decide)⟩

/-- C6 (counterexample): a zero-amount transfer whose tidx is the panic
sentinel 2^63 - 2 does not produce the invariant-violation error:
validateID runs before the amount check, so AddTransfer panics instead
of returning an error. -/
theorem nonpositive_amount_counterexample :
    txPanic.amount ≤ 0 ∧
    (AddTransfer [] txPanic).2 = AddResult.panicked ∧
    AddResult.panicked ≠ AddResult.errored := by decide

/-- Helper: the optional maximum computed by maxHeight agrees with a fold
of max over the block heights, with default 0. -/
theorem maxHeight_foldr (store : Store) :
    (maxHeight store).getD 0 = (store.map Row.blockHeight).foldr max 0 := by
  induction store with
  | nil => rfl
  | cons r rest ih =>
    simp only [maxHeight, List.map, List.foldr]
    cases h : maxHeight rest with
    | none =>
      rw [h] at ih
      simp only [Option.getD_none] at ih
      simp [← ih]
    | some m =>
      rw [h] at ih
      simp only [Option.getD_some] at ih
      simp [← ih]

/-- C7: TipHeight never returns an error; on a scan failure it yields 0
with a nil error, on an empty table it yields 0, and otherwise it
returns the maximum block height over the rows (all rows of a table
without failed rows, hence over the non-failed rows). -/
theorem tipHeight_spec (store : Store) (scanErr : Bool)
    (hnf : ∀ r ∈ store, r.status ≠ TransferStatus.failed) :
    (TipHeight store scanErr).2 = none ∧
    (TipHeight store true).1 = 0 ∧
    (store = [] → (TipHeight store scanErr).1 = 0) ∧
    (scanErr = false →
      (TipHeight store scanErr).1 =
        ((store.filter (fun r => r.status != TransferStatus.failed)).map
          Row.blockHeight).foldr max 0) := by
  have hfil : store.filter (fun r => r.status != TransferStatus.failed) = store := by
    apply List.filter_eq_self.mpr
    intro r hr
    simpa using hnf r hr
  have hval : (TipHeight store false).1 = (maxHeight store).getD 0 := by
    simp only [TipHeight, Bool.false_eq_true, if_false]
    cases h : maxHeight store <;> simp [h]
  refine ⟨?_, ?_, ?_, ?_⟩
  · cases scanErr
    · simp only [TipHeight, Bool.false_eq_true, if_false]
      cases h : maxHeight store <;> simp [h]
    · simp [TipHeight]
  · simp [TipHeight]
  · intro he
    subst he
    cases scanErr <;> simp [TipHeight, maxHeight]
  · intro hse
    subst hse
    rw [hfil, hval, maxHeight_foldr]

/-- C7 (witness): the TipHeight theorem evaluated on a one-row table with
block height 7 and no scan error. -/
theorem tipHeight_spec_witness :
    (∀ r ∈ [mkRow txOne], r.status ≠ TransferStatus.failed) ∧
    ((TipHeight [mkRow txOne] false).2 = none ∧
    (TipHeight [mkRow txOne] true).1 = 0 ∧
    (([mkRow txOne] : Store) = [] → (TipHeight [mkRow txOne] false).1 = 0) ∧
    (false = false →
      (TipHeight [mkRow txOne] false).1 =
        (([mkRow txOne].filter (fun r => r.status != TransferStatus.failed)).map
          Row.blockHeight).foldr max 0)) :=
  ⟨by decide, tipHeight_spec [mkRow txOne] false (by decide)⟩

end Recorder

namespace Relayer

/-- Helper: the signature-collection fold of submit computes the
concatenated signatures of the active witnesses, in the order the
witness list was supplied, together with their count. -/
theorem collectSigs_go (cache : List Address) (ws : List Witness)
    (sigs : List Byte) (n : Nat) :
    ws.foldl (fun acc w =>
      if cache.contains w.addr then (acc.1 ++ w.signature, acc.2 + 1) else acc)
      (sigs, n) =
    (sigs ++ ((ws.filter (fun w => cache.contains w.addr)).map
        Witness.signature).flatten,
     n + (ws.filter (fun w => cache.contains w.addr)).length) := by
  induction ws generalizing sigs n with
  | nil => simp
  | cons w rest ih =>
    by_cases h : cache.contains w.addr
    · simp only [List.foldl_cons, h, if_true]
      rw [ih (sigs ++ w.signature) (n + 1)]
      have hf : (w :: rest).filter (fun x => cache.contains x.addr) =
          w :: rest.filter (fun x => cache.contains x.addr) := by
        rw [List.filter_cons, if_pos h]
      rw [hf]
      apply Prod.ext
      · simp [List.append_assoc]
      · simp
        omega
    · simp only [List.foldl_cons, h, Bool.false_eq_true, if_false]
      rw [ih sigs n]
      have hf : (w :: rest).filter (fun x => cache.contains x.addr) =
          rest.filter (fun x => cache.contains x.addr) := by
        rw [List.filter_cons, if_neg h]
      rw [hf]

/-- Helper: closed form of collectSigs. -/
theorem collectSigs_eq (cache : List Address) (ws : List Witness) :
    collectSigs cache ws =
      (((ws.filter (fun w => cache.contains w.addr)).map
          Witness.signature).flatten,
       (ws.filter (fun w => cache.contains w.addr)).length) := by
  have h := collectSigs_go cache ws [] 0
  simpa [collectSigs] using h

/-- Helper: refresh never touches the gas parameters of the driver
state; only the cached witness set can change. -/
theorem refresh_preserves_gas (env : RefreshEnv) (tv : VState) :
    (refresh env tv).1.gasPrice = tv.gasPrice ∧
    (refresh env tv).1.gasLimit = tv.gasLimit := by
  rcases hc : env.countRead with e1 | count
  · simp [refresh, hc]
  · rcases hp : refreshPages env.pageRead (pageCount count) 0 [] with e1 | ws
    · simp [refresh, hc, hp]
    · rcases hcv : convertAll env.convert ws with e1 | u
      · simp [refresh, hc, hp, hcv]
      · simp [refresh, hc, hp, hcv]

/-- C10: the witness-set refresh is all-or-nothing with respect to the
cached driver state: whenever refresh returns an error (count read, any
page read or decode, or any address conversion having failed), the
driver state, in particular the cached witness set, is exactly as it was
before the call. -/
theorem refresh_frame_on_error (env : RefreshEnv) (tv : VState) (e : GoError)
    (h : (refresh env tv).2 = some e) : (refresh env tv).1 = tv := by
  rcases hc : env.countRead with e1 | count
  · simp [refresh, hc]
  · rcases hp : refreshPages env.pageRead (pageCount count) 0 [] with e1 | ws
    · simp [refresh, hc, hp]
    · rcases hcv : convertAll env.convert ws with e1 | u
      · simp [refresh, hc, hp, hcv]
      · exfalso
        simp [refresh, hc, hp, hcv] at h

/-- C10 (witness): the frame theorem evaluated on an environment whose
count read fails; the cached witness set stays empty. -/
theorem refresh_frame_on_error_witness :
    (refresh renvBad tvStart).2 = some "count failed" ∧
    (refresh renvBad tvStart).1 = tvStart :=
  ⟨rfl, refresh_frame_on_error renvBad tvStart "count failed" rfl⟩

/-- Helper: closed form of submit when refresh, the account read and the
Execute call all succeed. -/
theorem submit_eq_of_ok (env : SubEnv) (tv : VState) (tr : Transfer)
    (ws : List Witness) (resubmit : Bool) (tv1 : VState) (a : Account) (h : Hash)
    (hre : refresh env.renv tv = (tv1, none))
    (haeq : env.account = Except.ok a) (heeq : env.exec = Except.ok h) :
    submit env tv tr ws resubmit =
      (tv1,
       if (collectSigs tv1.witnesses ws).2 * 3 ≤ tv1.witnesses.length * 2 then
         Except.error SubmitErr.insufficientWitnesses
       else Except.ok
         { actionHash := h,
           nonce := if resubmit then tr.nonce else a.nonce + 1,
           gasPrice := tv1.gasPrice,
           payload := (collectSigs tv1.witnesses ws).1 }) := by
  unfold submit
  rw [hre]
  by_cases hq : (collectSigs tv1.witnesses ws).2 * 3 ≤ tv1.witnesses.length * 2
  · simp [hq]
  · simp [hq, haeq, heeq]

/-- C1: with the witness cache refreshed to W and the chain calls
succeeding, submit accepts and broadcasts exactly when three times the
number of supplied signatures from witnesses in W strictly exceeds twice
the size of W, and when that inequality fails it returns the
insufficient-witnesses error without broadcasting. -/
theorem submit_quorum (env : SubEnv) (tv : VState) (tr : Transfer)
    (ws : List Witness) (resubmit : Bool)
    (hr : (refresh env.renv tv).2 = none)
    (ha : ∃ a, env.account = Except.ok a)
    (he : ∃ h, env.exec = Except.ok h) :
    ((∃ b, (submit env tv tr ws resubmit).2 = Except.ok b) ↔
      2 * (refresh env.renv tv).1.witnesses.length <
        3 * (ws.filter (fun w =>
          (refresh env.renv tv).1.witnesses.contains w.addr)).length) ∧
    (3 * (ws.filter (fun w =>
        (refresh env.renv tv).1.witnesses.contains w.addr)).length ≤
          2 * (refresh env.renv tv).1.witnesses.length →
      (submit env tv tr ws resubmit).2 =
        Except.error SubmitErr.insufficientWitnesses) := by
  obtain ⟨a, haeq⟩ := ha
  obtain ⟨h, heeq⟩ := he
  have hre : refresh env.renv tv = ((refresh env.renv tv).1, none) := by
    rw [← hr]
  have hsub := submit_eq_of_ok env tv tr ws resubmit
    (refresh env.renv tv).1 a h hre haeq heeq
  have hcount : (collectSigs (refresh env.renv tv).1.witnesses ws).2 =
      (ws.filter (fun w =>
        (refresh env.renv tv).1.witnesses.contains w.addr)).length := by
    rw [collectSigs_eq]
  constructor
  · constructor
    · intro hex
      obtain ⟨b, hb⟩ := hex
      rw [hsub] at hb
      by_cases hq : (collectSigs (refresh env.renv tv).1.witnesses ws).2 * 3 ≤
          (refresh env.renv tv).1.witnesses.length * 2
      · rw [if_pos hq] at hb
        simp at hb
      · rw [hcount] at hq
        omega
    · intro hlt
      rw [hsub]
      have hq : ¬ ((collectSigs (refresh env.renv tv).1.witnesses ws).2 * 3 ≤
          (refresh env.renv tv).1.witnesses.length * 2) := by
        rw [hcount]
        omega
      rw [if_neg hq]
      exact ⟨_, rfl⟩
  · intro hle
    rw [hsub]
    have hq : (collectSigs (refresh env.renv tv).1.witnesses ws).2 * 3 ≤
        (refresh env.renv tv).1.witnesses.length * 2 := by
      rw [hcount]
      omega
    rw [if_pos hq]

/-- C1 (witness): the quorum theorem evaluated on a refreshed witness set
of size three with all three signatures supplied. -/
theorem submit_quorum_witness :
    ((refresh subEnvGood.renv tvStart).2 = none) ∧
    (((∃ b, (submit subEnvGood tvStart trSample [w1, w2, w3] false).2 =
        Except.ok b) ↔
      2 * (refresh subEnvGood.renv tvStart).1.witnesses.length <
        3 * ([w1, w2, w3].filter (fun w =>
          (refresh subEnvGood.renv tvStart).1.witnesses.contains w.addr)).length) ∧
    (3 * ([w1, w2, w3].filter (fun w =>
        (refresh subEnvGood.renv tvStart).1.witnesses.contains w.addr)).length ≤
          2 * (refresh subEnvGood.renv tvStart).1.witnesses.length →
      (submit subEnvGood tvStart trSample [w1, w2, w3] false).2 =
        Except.error SubmitErr.insufficientWitnesses)) :=
  ⟨rfl, submit_quorum subEnvGood tvStart trSample [w1, w2, w3] false rfl
    ⟨_, rfl⟩ ⟨_, rfl⟩⟩

end Relayer

namespace Relayer

/-- C2 (amended): for every accepted submission, the aggregated signature
payload passed to the validator contract is the concatenation of the
signatures of the supplied witnesses that are in the refreshed active
set, in the order in which the witness list was supplied to submit (the
code performs no sorting). -/
theorem submit_payload_input_order (env : SubEnv) (tv : VState) (tr : Transfer)
    (ws : List Witness) (resubmit : Bool) (b : Broadcast)
    (hok : (submit env tv tr ws resubmit).2 = Except.ok b) :
    b.payload = ((ws.filter (fun w =>
      (refresh env.renv tv).1.witnesses.contains w.addr)).map
        Witness.signature).flatten := by
  rcases hre : refresh env.renv tv with ⟨tv1, e2⟩
  unfold submit at hok
  rw [hre] at hok
  cases e2 with
  | some e =>
    exfalso
    simp at hok
  | none =>
    by_cases hq : (collectSigs tv1.witnesses ws).2 * 3 ≤ tv1.witnesses.length * 2
    · exfalso
      simp [hq] at hok
    · cases haq : env.account with
      | error e =>
        exfalso
        simp [hq, haq] at hok
      | ok a =>
        cases heq : env.exec with
        | error e =>
          exfalso
          simp [hq, haq, heq] at hok
        | ok h =>
          simp [hq, haq, heq] at hok
          rw [← hok]
          simp [collectSigs_eq]

/-- C2 (witness): the amended payload theorem evaluated on a submission
supplying the three active witnesses in the order w3, w1, w2. -/
theorem submit_payload_input_order_witness :
    ((submit subEnvGood tvStart trSample [w3, w1, w2] false).2 = Except.ok
      { actionHash := 99, nonce := 6, gasPrice := 1000000000000,
        payload := [30, 10, 20] }) ∧
    ({ actionHash := 99, nonce := 6, gasPrice := 1000000000000,
        payload := [30, 10, 20] : Broadcast }.payload =
      (([w3, w1, w2].filter (fun w =>
        (refresh subEnvGood.renv tvStart).1.witnesses.contains w.addr)).map
          Witness.signature).flatten) :=
  ⟨rfl, submit_payload_input_order subEnvGood tvStart trSample [w3, w1, w2]
    false _ rfl⟩

/-- C2 (counterexample): the aggregated payload is not the concatenation
in ascending witness-address order regardless of supplied order: with the
active set having addresses 1, 2 and 3 and the witnesses supplied in the
order w3, w1, w2, the broadcast payload follows the supplied order and
differs from the ascending-order concatenation. -/
theorem submit_payload_order_counterexample :
    (submit subEnvGood tvStart trSample [w3, w1, w2] false).2 = Except.ok
      { actionHash := 99, nonce := 6, gasPrice := 1000000000000,
        payload := [30, 10, 20] } ∧
    sortedSigPayload (refresh subEnvGood.renv tvStart).1.witnesses
      [w3, w1, w2] = [10, 20, 30] ∧
    ([30, 10, 20] : List Byte) ≠ [10, 20, 30] := by
  refine ⟨rfl, rfl, ?_⟩
  decide

/-- C8 (amended): every successful SpeedUp resubmits with the nonce
recorded on the transfer and with the gas price stored in the driver
state, which refresh and submit never change: the IoTeX driver keeps the
constructor gas price on speed-up and does not select a higher one. -/
theorem speedUp_nonce_gasPrice (env : SubEnv) (tv : VState) (tr : Transfer)
    (ws : List Witness) (b : Broadcast)
    (hok : (SpeedUp env tv tr ws).2 = Except.ok b) :
    b.nonce = tr.nonce ∧ b.gasPrice = tv.gasPrice := by
  unfold SpeedUp at hok
  rcases hre : refresh env.renv tv with ⟨tv1, e2⟩
  unfold submit at hok
  rw [hre] at hok
  have hgas : tv1.gasPrice = tv.gasPrice := by
    have h := (refresh_preserves_gas env.renv tv).1
    rw [hre] at h
    exact h
  cases e2 with
  | some e =>
    exfalso
    simp at hok
  | none =>
    by_cases hq : (collectSigs tv1.witnesses ws).2 * 3 ≤ tv1.witnesses.length * 2
    · exfalso
      simp [hq] at hok
    · cases haq : env.account with
      | error e =>
        exfalso
        simp [hq, haq] at hok
      | ok a =>
        cases heq : env.exec with
        | error e =>
          exfalso
          simp [hq, haq, heq] at hok
        | ok h =>
          simp [hq, haq, heq] at hok
          rw [← hok]
          exact ⟨rfl, hgas⟩

/-- C8 (witness): the amended SpeedUp theorem evaluated on the sample
environment; the broadcast uses the transfer nonce 42 and the driver gas
price. -/
theorem speedUp_nonce_gasPrice_witness :
    ((SpeedUp subEnvGood tvStart trSample [w1, w2, w3]).2 = Except.ok
      { actionHash := 99, nonce := 42, gasPrice := 1000000000000,
        payload := [10, 20, 30] }) ∧
    ({ actionHash := 99, nonce := 42, gasPrice := 1000000000000,
        payload := [10, 20, 30] : Broadcast }.nonce = trSample.nonce ∧
     { actionHash := 99, nonce := 42, gasPrice := 1000000000000,
        payload := [10, 20, 30] : Broadcast }.gasPrice = tvStart.gasPrice) :=
  ⟨rfl, speedUp_nonce_gasPrice subEnvGood tvStart trSample [w1, w2, w3] _ rfl⟩

/-- C8 (counterexample): a speed-up does not pick a gas price strictly
higher than the prior submission: on the same driver state the original
Submit and the SpeedUp broadcast the same gas price, so the strict
increase the claim requires fails. -/
theorem speedUp_gasPrice_counterexample :
    (Submit subEnvGood tvStart trSample [w1, w2, w3]).2 = Except.ok
      { actionHash := 99, nonce := 6, gasPrice := 1000000000000,
        payload := [10, 20, 30] } ∧
    (SpeedUp subEnvGood tvStart trSample [w1, w2, w3]).2 = Except.ok
      { actionHash := 99, nonce := 42, gasPrice := 1000000000000,
        payload := [10, 20, 30] } ∧
    ¬ ((1000000000000 : Int) < (1000000000000 : Int)) := by
  refine ⟨rfl, rfl, ?_⟩
  decide

/-- C9: Check classifies exactly as the spec order states: Settled on a
positive settle height; else Rejected when the receipt fetch succeeds
with a response; else NeedSpeedUp when the transaction is not found;
else NotConfirmed; and Unknown carrying the error on any RPC failure,
including a failed settles read. -/
theorem check_refines_spec (env : CheckEnv) : Check env = CheckSpec env := by
  unfold Check CheckSpec
  cases hs : env.settles with
  | error e => rfl
  | ok settleHeight =>
    by_cases hpos : 0 < settleHeight
    · simp [hpos]
    · cases hr : env.receipt with
      | errNotFound => simp [hpos]
      | errOther e => simp [hpos]
      | okResp r => cases r <;> simp [hpos]

end Relayer
